import Mathlib

/-!
# Verification of the M3U downloader engine

Shallow embedding of the download engine of the M3U-Downloader repository
(`download_optimizer.py`, `async_downloader.py`, `download_state.py`) and
proofs about it.  Python integers are modelled as `Int`/`Nat`, Python floats
as `ℚ` (all float computations the claims touch are exact at the inputs
considered), dictionaries as functions into `Option`, and file contents as
lists of byte values.
-/

namespace M3U

/-! ## Definitions -/

namespace DownloadOptimizer

/-- Byte content of a file: a list of byte values. -/
abbrev Bytes := List Nat

/-- Number of chunks chosen by `DownloadOptimizer.calculate_optimal_chunks`
by file-size tier (`download_optimizer.py` lines 129-138). -/
def num_chunks_for (file_size : Int) (max_chunks : Nat) : Nat :=
  if file_size < 1024 * 1024 then 1
  else if file_size < 10 * 1024 * 1024 then min 2 max_chunks
  else if file_size < 100 * 1024 * 1024 then min 4 max_chunks
  else max_chunks

/-- `DownloadOptimizer.calculate_optimal_chunks` (`download_optimizer.py`
lines 124-151).  The unused `url` parameter is dropped.  Python `//` on the
positive operands used here agrees with `Int` division (`Int.ediv`). -/
def calculate_optimal_chunks (file_size : Int) (max_chunks : Nat) :
    List (Int × Option Int) :=
  if file_size ≤ 0 then [(0, none)]
  else
    let num_chunks := num_chunks_for file_size max_chunks
    let chunk_size := file_size / (num_chunks : Int)
    (List.range num_chunks).map (fun (i : Nat) =>
      ((i : Int) * chunk_size,
        if i = num_chunks - 1 then none
        else some (((i : Int) + 1) * chunk_size - 1)))

/-- Last byte offset of a planned chunk: a closed end gives it directly, an
open end means "through the last byte of the file" (this is how an open
`Range: bytes=s-` request is served). -/
def chunk_last (file_size : Int) (c : Int × Option Int) : Int :=
  match c.2 with
  | some e => e
  | none => file_size - 1

/-- Byte offset `b` lies in planned chunk `c` of a file of `file_size` bytes. -/
def in_chunk (file_size : Int) (c : Int × Option Int) (b : Int) : Prop :=
  c.1 ≤ b ∧ b ≤ chunk_last file_size c

instance (fs : Int) (c : Int × Option Int) (b : Int) : Decidable (in_chunk fs c b) :=
  inferInstanceAs (Decidable (_ ∧ _))

/-- Python `int(x)` on a float: truncation toward zero. -/
def py_int (q : ℚ) : Int :=
  if q < 0 then ⌈q⌉ else ⌊q⌋

/-- Python dict assignment `d[k] = v`. -/
def dict_set {α : Type} (d : String → Option α) (k : String) (v : α) :
    String → Option α :=
  fun k' => if k' = k then some v else d k'

/-- State of a `DownloadOptimizer` instance (`download_optimizer.py` lines
6-19).  Dictionaries keyed by URL are modelled as functions into `Option`,
floats as `ℚ`. -/
structure OptimizerState where
  speed_history : String → Option (List ℚ)
  chunk_sizes : String → Option ℚ
  min_chunk_size : ℚ
  max_chunk_size : ℚ
  max_speed_limit : Option ℚ
  rate_limit_tokens : String → Option ℚ
  last_token_update : String → Option ℚ
  backoff_factors : String → Option ℚ

/-- `DownloadOptimizer.__init__` with its default chunk-size arguments. -/
def init_optimizer (max_speed_limit : Option ℚ) : OptimizerState :=
  { speed_history := fun _ => none
    chunk_sizes := fun _ => none
    min_chunk_size := 65536
    max_chunk_size := 4194304
    max_speed_limit := max_speed_limit
    rate_limit_tokens := fun _ => none
    last_token_update := fun _ => none
    backoff_factors := fun _ => none }

/-- `DownloadOptimizer.get_download_speed` (lines 57-61): average of the
recorded speed history, `None` when the history is absent or empty. -/
def get_download_speed (st : OptimizerState) (url : String) : Option ℚ :=
  match st.speed_history url with
  | some l => if l ≠ [] then some (l.sum / l.length) else none
  | none => none

/-- `DownloadOptimizer.update_speed` (lines 29-55).  `int(avg_speed / 4)`
is `py_int`; the history keeps the last 5 samples; a positive-duration
sample decays any backoff factor above 1 by 0.9, floored at 1. -/
def update_speed (st : OptimizerState) (url : String)
    (bytes_downloaded duration : ℚ) : OptimizerState :=
  if 0 < duration then
    let speed := bytes_downloaded / duration
    let hist0 := (st.speed_history url).getD [] ++ [speed]
    let hist := if 5 < hist0.length then hist0.tail else hist0
    let avg_speed := hist.sum / hist.length
    let new_chunk_size :=
      min (max ((py_int (avg_speed / 4) : Int) : ℚ) st.min_chunk_size)
        st.max_chunk_size
    let backoff :=
      match st.backoff_factors url with
      | some b =>
        if 1 < b then dict_set st.backoff_factors url (max 1 (b * (9 / 10)))
        else st.backoff_factors
      | none => st.backoff_factors
    { st with
      speed_history := dict_set st.speed_history url hist
      chunk_sizes := dict_set st.chunk_sizes url new_chunk_size
      backoff_factors := backoff }
  else st

/-- `DownloadOptimizer.handle_server_error` (lines 116-122): the backoff
factor (1.0 when absent) is multiplied by 1.5 and capped at 8.0. -/
def handle_server_error (st : OptimizerState) (url : String) : OptimizerState :=
  let b0 := (st.backoff_factors url).getD 1
  { st with backoff_factors := dict_set st.backoff_factors url (min 8 (b0 * (3 / 2))) }

/-- `DownloadOptimizer.apply_rate_limit` (lines 63-114) as a pure function of
the state, the wall-clock `current_time` and the jitter sample
`jitter` drawn by `random.uniform(0, 0.1)`.  Returns the updated state
together with the duration passed to `asyncio.sleep` (`0` when the code
returns without sleeping). -/
def apply_rate_limit (st : OptimizerState) (url : String)
    (bytes_to_download current_time jitter : ℚ) : OptimizerState × ℚ :=
  match st.rate_limit_tokens url with
  | none =>
    ({ st with
        rate_limit_tokens := dict_set st.rate_limit_tokens url bytes_to_download
        last_token_update := dict_set st.last_token_update url current_time
        backoff_factors := dict_set st.backoff_factors url 1 }, 0)
  | some tokens =>
    let time_elapsed := current_time - (st.last_token_update url).getD 0
    let effective_limit0 : ℚ :=
      match st.max_speed_limit with
      | some l => l
      | none =>
        match get_download_speed st url with
        | some avg =>
          if avg ≠ 0 then ((py_int (avg * (6 / 5)) : Int) : ℚ)
          else 5 * 1024 * 1024
        | none => 5 * 1024 * 1024
    let effective_limit := effective_limit0 / (st.backoff_factors url).getD 1
    let new_tokens :=
      min (tokens + time_elapsed * effective_limit) (st.max_chunk_size * 2)
    let st' :=
      { st with last_token_update := dict_set st.last_token_update url current_time }
    if new_tokens < bytes_to_download then
      ({ st' with rate_limit_tokens := dict_set st.rate_limit_tokens url 0 },
        ((bytes_to_download - new_tokens) / effective_limit) * (1 + jitter))
    else
      ({ st' with rate_limit_tokens :=
          dict_set st.rate_limit_tokens url (new_tokens - bytes_to_download) }, 0)

/-- The rate claim C4 says `apply_rate_limit` uses, written from the spec's
words: the backoff divisor is applied only when a global limit is set;
otherwise the rate is `1.2 × observed average speed` (history present) or
5 MiB/s, undivided. -/
def spec_claimed_rate (st : OptimizerState) (url : String) : ℚ :=
  match st.max_speed_limit with
  | some l => l / (st.backoff_factors url).getD 1
  | none =>
    match get_download_speed st url with
    | some avg => if avg ≠ 0 then avg * (6 / 5) else 5 * 1024 * 1024
    | none => 5 * 1024 * 1024

/-- One call into the optimizer, as recorded in an operation sequence. -/
inductive OptimizerOp where
  | rateLimit (url : String) (bytes t j : ℚ)
  | serverError (url : String)
  | speedSample (url : String) (bytes duration : ℚ)

/-- Apply one optimizer call to the state. -/
def run_op (st : OptimizerState) : OptimizerOp → OptimizerState
  | .rateLimit url bytes t j => (apply_rate_limit st url bytes t j).1
  | .serverError url => handle_server_error st url
  | .speedSample url bytes dur => update_speed st url bytes dur

/-- Run a sequence of optimizer calls from a state. -/
def run_ops (st : OptimizerState) (ops : List OptimizerOp) : OptimizerState :=
  ops.foldl run_op st

/-- Every backoff factor recorded in the state lies in `[1, 8]`. -/
def backoff_bounded (st : OptimizerState) : Prop :=
  ∀ url b, st.backoff_factors url = some b → 1 ≤ b ∧ b ≤ 8

/-- The effective refill rate `apply_rate_limit` computes (lines 78-91 of
`download_optimizer.py`): the base limit — the global limit when set,
otherwise `int(1.2 × average observed speed)` when a nonzero history
exists, otherwise 5 MiB/s — divided by the backoff factor in *every* case
(line 91 applies the division unconditionally). -/
def code_rate (st : OptimizerState) (url : String) : ℚ :=
  (match st.max_speed_limit with
   | some l => l
   | none =>
     match get_download_speed st url with
     | some avg =>
       if avg ≠ 0 then ((py_int (avg * (6 / 5)) : Int) : ℚ) else 5 * 1024 * 1024
     | none => 5 * 1024 * 1024) / (st.backoff_factors url).getD 1

/-- Token-bucket refill-and-consume step at rate `r` (an initialized bucket
in `apply_rate_limit`): the resulting sleep duration. -/
def bucket_sleep (tokens elapsed cap bytes j r : ℚ) : ℚ :=
  if min (tokens + elapsed * r) cap < bytes then
    ((bytes - min (tokens + elapsed * r) cap) / r) * (1 + j)
  else 0

/-- Token-bucket refill-and-consume step at rate `r`: the resulting token
balance. -/
def bucket_tokens (tokens elapsed cap bytes r : ℚ) : ℚ :=
  if min (tokens + elapsed * r) cap < bytes then 0
  else min (tokens + elapsed * r) cap - bytes

/-- A concrete reachable optimizer state: no global speed limit, bucket for
`"u"` initialized with zero tokens at clock 0, one recorded speed sample of
1000 bytes/s, backoff factor 3/2 from one server error. -/
def C4_state : OptimizerState :=
  run_ops (init_optimizer none)
    [OptimizerOp.rateLimit "u" 0 0 0,
     OptimizerOp.speedSample "u" 1000 1,
     OptimizerOp.serverError "u"]

end DownloadOptimizer

namespace AsyncDownloader

/-- Result of one `_download_chunk` call: on success the final content of
`<filepath>.part<chunk_id>` and the returned byte count; otherwise the
exception surfaced to the caller. -/
inductive ChunkResult where
  | ok (partContent : List Nat) (returned : Nat)
  | err (msg : String)
deriving DecidableEq

/-- The retry loop of `AsyncDownloader._download_chunk`
(`async_downloader.py` lines 129-284).  `server k` is the HTTP status the
server answers on the `k`-th GET of this call, `bodies k` the body streamed
when that response is consumed.  Every raise in the source happens before
`aiofiles.open` (line 192), so a failing attempt leaves the part file and
`bytes_downloaded` untouched; a successful pass streams the whole body
(mid-stream transport failures are not modelled, no claim needs them).
Recursion arguments: remaining fuel (`retry_count - retries` on loop
entry — every iteration either exits or increments `retries`), the GET
counter `k`, `retries`, `bytes_downloaded` (initialized to `resume_from` at
line 113), the append mode of line 127 (possibly reset by the chunk-0
fallback at line 177), and the current part-file content.  The fuel-0 case
is the loop's fall-through `return bytes_downloaded` (line 284).  The
second component of the result counts the GETs issued. -/
def chunk_loop (retry_count chunk_id : Nat) (has_range : Bool)
    (resume_from : Nat) (server : Nat → Nat) (bodies : Nat → List Nat) :
    Nat → Nat → Nat → Nat → Bool → List Nat → ChunkResult × Nat
  | 0, k, _retries, bytes_downloaded, _append, file =>
    (ChunkResult.ok file bytes_downloaded, k)
  | fuel + 1, k, retries, bytes_downloaded, append, file =>
    let status := server k
    if status = 458 ∧ retries < retry_count - 1 then
      chunk_loop retry_count chunk_id has_range resume_from server bodies
        fuel (k + 1) (retries + 1) bytes_downloaded append file
    else
      if ((has_range = true ∨ 0 < resume_from) ∧ status ≠ 206) ∧ chunk_id ≠ 0 then
        if retry_count - 1 ≤ retries then (ChunkResult.err "range", k + 1)
        else
          chunk_loop retry_count chunk_id has_range resume_from server bodies
            fuel (k + 1) (retries + 1) bytes_downloaded append file
      else
        let bytes1 :=
          if ((has_range = true ∨ 0 < resume_from) ∧ status ≠ 206) ∧ 0 < resume_from
          then 0 else bytes_downloaded
        let append1 :=
          if ((has_range = true ∨ 0 < resume_from) ∧ status ≠ 206) ∧ 0 < resume_from
          then false else append
        if status ≠ 200 ∧ status ≠ 206 then
          if retry_count - 1 ≤ retries then (ChunkResult.err "http", k + 1)
          else
            chunk_loop retry_count chunk_id has_range resume_from server bodies
              fuel (k + 1) (retries + 1) bytes1 append1 file
        else
          let body := bodies k
          (ChunkResult.ok ((if append1 then file else []) ++ body)
            (bytes1 + body.length), k + 1)

/-- `AsyncDownloader._download_chunk` (lines 85-284): `bytes_downloaded`
starts at `resume_from`, the part file is opened for append iff
`resume_from > 0` and it already exists (line 127), and the loop starts at
`retries = 0`.  `prior` is the content of `<filepath>.part<chunk_id>`
before the call (`none` when absent); `has_range` is whether a `start` byte
was passed. -/
def download_chunk (retry_count chunk_id : Nat) (has_range : Bool)
    (resume_from : Nat) (prior : Option (List Nat))
    (server : Nat → Nat) (bodies : Nat → List Nat) : ChunkResult × Nat :=
  chunk_loop retry_count chunk_id has_range resume_from server bodies
    retry_count 0 0 resume_from (decide (0 < resume_from) && prior.isSome)
    (prior.getD [])

/-- The key under which `_download_chunk` tracks a chunk in
`active_downloads` (line 117): `f"{filepath}_{chunk_id}"`. -/
def download_key (filepath : String) (chunk_id : Nat) : String :=
  filepath ++ "_" ++ toString chunk_id

/-- Python unpacking of one string into two targets, as
`for _, (start, end) in enumerate(self.active_downloads)` (line 220) does
to each key of `active_downloads` (iterating a dict yields its keys):
it succeeds only when the string has exactly two characters, binding each
to one character; otherwise it raises `ValueError`. -/
def unpack_pair (s : String) : Except String (Char × Char) :=
  match s.toList with
  | [a, b] => Except.ok (a, b)
  | _ => Except.error "ValueError: cannot unpack"

/-- The `chunk_ranges` argument built at line 220 of `async_downloader.py`,
evaluated over the keys of `active_downloads`. -/
def chunk_ranges_expr (active_keys : List String) :
    Except String (List (Char × Char)) :=
  active_keys.mapM unpack_pair

/-- Opening and reading a part file: raises `FileNotFoundError` when it is
absent. -/
def read_file (parts : Nat → Option (List Nat)) (i : Nat) :
    Except String (List Nat) :=
  match parts i with
  | some content => Except.ok content
  | none => Except.error "FileNotFoundError"

/-- The loop of `_merge_chunks` (lines 292-304) over the remaining chunk
indices: a part file that exists (line 294) is opened, read and appended to
the output; a missing one only logs a warning (line 304); an exception from
a read would propagate through lines 305-307. -/
def merge_go (parts : Nat → Option (List Nat)) :
    List Nat → List Nat → Except String (List Nat)
  | acc, [] => Except.ok acc
  | acc, i :: rest =>
    if (parts i).isSome then
      match read_file parts i with
      | Except.ok content => merge_go parts (acc ++ content) rest
      | Except.error e => Except.error e
    else
      merge_go parts acc rest

/-- `AsyncDownloader._merge_chunks` (lines 286-307): concatenate
`<filepath>.part0 … .part<chunk_count-1>` into the destination.  `parts i`
is the content of part file `i` when it exists; the result is the content
written to the destination, or the exception raised. -/
def merge_chunks (parts : Nat → Option (List Nat)) (chunk_count : Nat) :
    Except String (List Nat) :=
  merge_go parts [] (List.range chunk_count)

end AsyncDownloader

namespace DownloadState

/-- `DownloadState._get_state_path` (`download_state.py` lines 19-23):
`/`, `\` and `:` become `_`, then `.state` is appended; the leading join
with `state_dir` is common to `save_state` and `load_state` and dropped. -/
def get_state_path (filepath : String) : String :=
  (filepath.map (fun c => if c = '/' ∨ c = '\\' ∨ c = ':' then '_' else c))
    ++ ".state"

/-- The Python value `json.load` yields for a state file that `save_state`
wrote with `json.dump`: JSON stringifies the integer keys of
`downloaded_chunks`, and the `chunk_ranges` tuples come back as two-element
lists (`None` as `null`). -/
structure StoredState where
  filepath : String
  url : String
  downloaded_chunks : List (String × Int)
  total_size : Int
  chunk_ranges : List (List (Option Int))
  timestamp : ℚ
deriving DecidableEq

/-- `DownloadState.save_state` (lines 25-48) acting on the state directory
`fs` (a map from encoded state paths to stored records): serializes all six
fields and overwrites the state file for `filepath`. -/
def save_state (fs : String → Option StoredState) (filepath url : String)
    (downloaded_chunks : List (Int × Int)) (total_size : Int)
    (chunk_ranges : List (Int × Option Int)) (timestamp : ℚ) :
    String → Option StoredState :=
  fun p =>
    if p = get_state_path filepath then
      some { filepath := filepath
             url := url
             downloaded_chunks :=
               downloaded_chunks.map (fun e => (toString e.1, e.2))
             total_size := total_size
             chunk_ranges := chunk_ranges.map (fun e => [some e.1, e.2])
             timestamp := timestamp }
    else fs p

/-- `DownloadState.load_state` (lines 50-75): parse the state file when it
exists, returning `none` otherwise.  A record written by `save_state`
always parses and carries the five required keys, so the validation at
lines 69-71 passes for it. -/
def load_state (fs : String → Option StoredState) (filepath : String) :
    Option StoredState :=
  fs (get_state_path filepath)

end DownloadState

/-! ## Theorems -/

namespace DownloadOptimizer

theorem num_chunks_pos (fs : Int) (mc : Nat) (hmc : 1 ≤ mc) :
    1 ≤ num_chunks_for fs mc := by
  unfold num_chunks_for
  split
  · omega
  · split
    · omega
    · split <;> omega

theorem calculate_optimal_chunks_length (fs : Int) (mc : Nat) (hfs : 0 < fs) :
    (calculate_optimal_chunks fs mc).length = num_chunks_for fs mc := by
  unfold calculate_optimal_chunks
  rw [if_neg (by omega), List.length_map, List.length_range]

theorem calculate_optimal_chunks_get (fs : Int) (mc : Nat) (hfs : 0 < fs) (i : Nat)
    (hi : i < num_chunks_for fs mc) :
    (calculate_optimal_chunks fs mc)[i]? =
      some ((i : Int) * (fs / (num_chunks_for fs mc : Int)),
        if i = num_chunks_for fs mc - 1 then none
        else some (((i : Int) + 1) * (fs / (num_chunks_for fs mc : Int)) - 1)) := by
  unfold calculate_optimal_chunks
  rw [if_neg (by omega)]
  rw [List.getElem?_map, List.getElem?_range hi]
  rfl

theorem chunk_plan_partition (fs : Int) (mc : Nat) (hfs : 0 < fs) (hmc : 1 ≤ mc) :
    ((calculate_optimal_chunks fs mc)[0]?).map Prod.fst = some 0 ∧
    (∀ (i : Nat) (s e : Int) (c' : Int × Option Int),
      (calculate_optimal_chunks fs mc)[i]? = some (s, some e) →
      (calculate_optimal_chunks fs mc)[i + 1]? = some c' → c'.1 = e + 1) ∧
    (∀ b : Int, (0 ≤ b ∧ b < fs) ↔
      ∃ (i : Nat) (c : Int × Option Int),
        (calculate_optimal_chunks fs mc)[i]? = some c ∧ in_chunk fs c b) ∧
    (∀ (b : Int) (i j : Nat) (ci cj : Int × Option Int),
      (calculate_optimal_chunks fs mc)[i]? = some ci →
      (calculate_optimal_chunks fs mc)[j]? = some cj →
      in_chunk fs ci b → in_chunk fs cj b → i = j) := by
  have hn : 1 ≤ num_chunks_for fs mc := num_chunks_pos fs mc hmc
  set n := num_chunks_for fs mc with hn_def
  set q := fs / (n : Int) with hq_def
  have hnpos : (0 : Int) < (n : Int) := by exact_mod_cast hn
  have hq0 : 0 ≤ q := Int.ediv_nonneg hfs.le hnpos.le
  have hnq : (n : Int) * q ≤ fs := by
    have h := Int.ediv_add_emod fs (n : Int)
    have hr : 0 ≤ fs % (n : Int) := Int.emod_nonneg fs (by omega)
    rw [hq_def]
    linarith
  have hlen : (calculate_optimal_chunks fs mc).length = n :=
    calculate_optimal_chunks_length fs mc hfs
  have hget : ∀ i : Nat, i < n → (calculate_optimal_chunks fs mc)[i]? =
      some ((i : Int) * q, if i = n - 1 then none else some (((i : Int) + 1) * q - 1)) :=
    fun i hi => calculate_optimal_chunks_get fs mc hfs i hi
  have hidx : ∀ {i : Nat} {c : Int × Option Int},
      (calculate_optimal_chunks fs mc)[i]? = some c → i < n := by
    intro i c h
    by_contra hcon
    rw [List.getElem?_eq_none (by omega : (calculate_optimal_chunks fs mc).length ≤ i)] at h
    exact Option.noConfusion h
  have hgetlast : (calculate_optimal_chunks fs mc)[n - 1]? =
      some (((n : Int) - 1) * q, none) := by
    rw [hget (n - 1) (by omega)]
    have hc : (((n - 1 : Nat) : Int)) = (n : Int) - 1 := by omega
    simp [hc]
  -- uniqueness auxiliary: two distinct chunks never share a byte
  have aux : ∀ (b : Int) (i j : Nat) (ci cj : Int × Option Int),
      (calculate_optimal_chunks fs mc)[i]? = some ci →
      (calculate_optimal_chunks fs mc)[j]? = some cj →
      in_chunk fs ci b → in_chunk fs cj b → i < j → False := by
    intro b i j ci cj hci hcj hini hinj hij
    have hi : i < n := hidx hci
    have hj : j < n := hidx hcj
    have hine : i ≠ n - 1 := by omega
    rw [hget i hi, if_neg hine] at hci
    rw [hget j hj] at hcj
    have hci' := Option.some.inj hci
    have hcj' := Option.some.inj hcj
    rw [← hci'] at hini
    rw [← hcj'] at hinj
    have hub : b ≤ ((i : Int) + 1) * q - 1 := hini.2
    have hlb : (j : Int) * q ≤ b := hinj.1
    have hle : ((i : Int) + 1) * q ≤ (j : Int) * q := by
      have : ((i : Int) + 1) ≤ (j : Int) := by omega
      exact mul_le_mul_of_nonneg_right this hq0
    linarith
  refine ⟨?_, ?_, ?_, ?_⟩
  · rw [hget 0 (by omega)]
    simp
  · intro i s e c' h1 h2
    have hi1 : i + 1 < n := hidx h2
    have hi : i < n := by omega
    rw [hget i hi] at h1
    rw [hget (i + 1) hi1] at h2
    by_cases hlast : i = n - 1
    · rw [if_pos hlast] at h1
      simp at h1
    · rw [if_neg hlast] at h1
      have hpair := Prod.ext_iff.mp (Option.some.inj h1)
      have he : ((i : Int) + 1) * q - 1 = e := Option.some.inj hpair.2
      have h2' := Option.some.inj h2
      have hc1 : c'.1 = (((i + 1 : Nat) : Int)) * q := by rw [← h2']
      rw [hc1]
      have hcast : (((i + 1 : Nat) : Int)) = (i : Int) + 1 := by omega
      rw [hcast]
      linarith
  · intro b
    constructor
    · rintro ⟨hb0, hbfs⟩
      by_cases hbfinal : ((n : Int) - 1) * q ≤ b
      · exact ⟨n - 1, _, hgetlast, hbfinal, by simp [chunk_last]; omega⟩
      · push_neg at hbfinal
        have hqpos : 0 < q := by nlinarith
        have hdivnn : 0 ≤ b / q := Int.ediv_nonneg hb0 hqpos.le
        have hmodid := Int.ediv_add_emod b q
        have hmod0 : 0 ≤ b % q := Int.emod_nonneg b (by omega)
        have hmodlt : b % q < q := Int.emod_lt_of_pos b hqpos
        have hdivlt : b / q < (n : Int) - 1 :=
          (Int.ediv_lt_iff_lt_mul hqpos).mpr (by linarith)
        set i : Nat := (b / q).toNat with hi_def
        have hcast : ((i : Nat) : Int) = b / q := Int.toNat_of_nonneg hdivnn
        have hilt : i < n - 1 := by omega
        have hine : i ≠ n - 1 := by omega
        have hgeti : (calculate_optimal_chunks fs mc)[i]? =
            some ((i : Int) * q, some (((i : Int) + 1) * q - 1)) := by
          rw [hget i (by omega), if_neg hine]
        refine ⟨i, _, hgeti, ?_, ?_⟩
        · show (i : Int) * q ≤ b
          rw [hcast]
          nlinarith [Int.ediv_add_emod b q, hmod0]
        · show b ≤ chunk_last fs ((i : Int) * q, some (((i : Int) + 1) * q - 1))
          unfold chunk_last
          dsimp only
          rw [hcast]
          have : b + 1 ≤ (b / q + 1) * q := by nlinarith
          linarith
    · rintro ⟨i, c, hc, hin⟩
      have hi : i < n := hidx hc
      rw [hget i hi] at hc
      have hc' := Option.some.inj hc
      rw [← hc'] at hin
      have hstart : (0 : Int) ≤ (i : Int) * q :=
        mul_nonneg (Int.natCast_nonneg i) hq0
      refine ⟨le_trans hstart hin.1, ?_⟩
      by_cases hlast : i = n - 1
      · have := hin.2
        rw [if_pos hlast] at this
        unfold chunk_last at this
        simp at this
        omega
      · have := hin.2
        rw [if_neg hlast] at this
        unfold chunk_last at this
        simp at this
        have hle : ((i : Int) + 1) * q ≤ (n : Int) * q := by
          have : ((i : Int) + 1) ≤ (n : Int) := by omega
          exact mul_le_mul_of_nonneg_right this hq0
        linarith
  · intro b i j ci cj hci hcj hini hinj
    rcases lt_trichotomy i j with h | h | h
    · exact absurd (aux b i j ci cj hci hcj hini hinj h) not_false
    · exact h
    · exact absurd (aux b j i cj ci hcj hci hinj hini h) not_false

/-- **C1** (counterexample): at `file_size = 2097152` (2 MiB) and
`max_chunks = 8` the plan is `[(0, some 1048575), (1048576, none)]`: the
final chunk's end is `none` (open), not the closed byte
`file_size - 1 = 2097151` that the claim asserts `calculate_optimal_chunks`
sets explicitly. -/
theorem C1_counterexample :
    calculate_optimal_chunks 2097152 8 = [(0, some 1048575), (1048576, none)] ∧
    (calculate_optimal_chunks 2097152 8).getLast?.map Prod.snd ≠
      some (some (2097152 - 1)) := by
  constructor
  · decide
  · decide

/-- **C1** (amended): for every `file_size > 0` and `max_chunks ≥ 1`, every
non-final chunk of the plan has length `⌊file_size / n⌋`, and the final chunk
is `((n-1)·⌊file_size / n⌋, none)`: its end is left *open* (`None`) rather
than set to the closed value `file_size - 1`, and that open range reaches
exactly byte `file_size - 1`, so the remainder is absorbed by the open-ended
final range. -/
theorem C1_chunk_sizes (fs : Int) (mc : Nat) (hfs : 0 < fs) (hmc : 1 ≤ mc) :
    (calculate_optimal_chunks fs mc).length = num_chunks_for fs mc ∧
    (∀ (i : Nat) (s e : Int),
      (calculate_optimal_chunks fs mc)[i]? = some (s, some e) →
      e - s + 1 = fs / (num_chunks_for fs mc : Int)) ∧
    (calculate_optimal_chunks fs mc)[num_chunks_for fs mc - 1]? =
      some (((num_chunks_for fs mc : Int) - 1) *
        (fs / (num_chunks_for fs mc : Int)), none) ∧
    chunk_last fs (((num_chunks_for fs mc : Int) - 1) *
      (fs / (num_chunks_for fs mc : Int)), none) = fs - 1 ∧
    ((num_chunks_for fs mc : Int) - 1) * (fs / (num_chunks_for fs mc : Int)) ≤
      fs - 1 := by
  have hn : 1 ≤ num_chunks_for fs mc := num_chunks_pos fs mc hmc
  set n := num_chunks_for fs mc with hn_def
  set q := fs / (n : Int) with hq_def
  have hnpos : (0 : Int) < (n : Int) := by exact_mod_cast hn
  have hq0 : 0 ≤ q := Int.ediv_nonneg hfs.le hnpos.le
  have hnq : (n : Int) * q ≤ fs := by
    have h := Int.ediv_add_emod fs (n : Int)
    have hr : 0 ≤ fs % (n : Int) := Int.emod_nonneg fs (by omega)
    rw [hq_def]
    linarith
  refine ⟨calculate_optimal_chunks_length fs mc hfs, ?_, ?_, rfl, ?_⟩
  · intro i s e h
    have hi : i < n := by
      by_contra hcon
      rw [List.getElem?_eq_none
        (by rw [calculate_optimal_chunks_length fs mc hfs]; omega)] at h
      exact Option.noConfusion h
    rw [calculate_optimal_chunks_get fs mc hfs i hi] at h
    by_cases hlast : i = n - 1
    · rw [if_pos hlast] at h
      simp at h
    · rw [if_neg hlast] at h
      have hpair := Option.some.inj h
      rw [Prod.mk.injEq] at hpair
      obtain ⟨hs, he'⟩ := hpair
      have he := Option.some.inj he'
      rw [← hs, ← he]
      ring
  · rw [calculate_optimal_chunks_get fs mc hfs (n - 1) (by omega)]
    have hc : (((n - 1 : Nat) : Int)) = (n : Int) - 1 := by omega
    simp [hc]
  · rcases hq0.lt_or_eq with hqpos | hq0'
    · have hq1 : (1 : Int) ≤ q := hqpos
      nlinarith
    · rw [← hq0']
      simp
      omega

/-- **C7**: for every `file_size > 0` and `max_chunks ≥ 1` the plan returned
by `calculate_optimal_chunks` is an ordered list of contiguous,
non-overlapping byte ranges that together cover exactly `[0, file_size)`:
the first chunk starts at 0, each chunk with a closed end is followed by a
chunk starting one byte later, every byte of the file lies in some chunk and
in no two distinct chunks, the final (open-ended) chunk reaching the last
byte with no gap and no overlap. -/
theorem C7_chunk_plan_covers (fs : Int) (mc : Nat) (hfs : 0 < fs) (hmc : 1 ≤ mc) :
    ((calculate_optimal_chunks fs mc)[0]?).map Prod.fst = some 0 ∧
    (∀ (i : Nat) (s e : Int) (c' : Int × Option Int),
      (calculate_optimal_chunks fs mc)[i]? = some (s, some e) →
      (calculate_optimal_chunks fs mc)[i + 1]? = some c' → c'.1 = e + 1) ∧
    (∀ b : Int, (0 ≤ b ∧ b < fs) ↔
      ∃ (i : Nat) (c : Int × Option Int),
        (calculate_optimal_chunks fs mc)[i]? = some c ∧ in_chunk fs c b) ∧
    (∀ (b : Int) (i j : Nat) (ci cj : Int × Option Int),
      (calculate_optimal_chunks fs mc)[i]? = some ci →
      (calculate_optimal_chunks fs mc)[j]? = some cj →
      in_chunk fs ci b → in_chunk fs cj b → i = j) :=
  chunk_plan_partition fs mc hfs hmc

/-- Witness for C1 (amended): its hypotheses hold at `file_size = 2097152`,
`max_chunks = 8`. -/
theorem C1_chunk_sizes_witness :
    (0 : Int) < 2097152 ∧ 1 ≤ 8 ∧
    ((calculate_optimal_chunks 2097152 8).length = num_chunks_for 2097152 8 ∧
    (∀ (i : Nat) (s e : Int),
      (calculate_optimal_chunks 2097152 8)[i]? = some (s, some e) →
      e - s + 1 = 2097152 / (num_chunks_for 2097152 8 : Int)) ∧
    (calculate_optimal_chunks 2097152 8)[num_chunks_for 2097152 8 - 1]? =
      some (((num_chunks_for 2097152 8 : Int) - 1) *
        ((2097152 : Int) / (num_chunks_for 2097152 8 : Int)), none) ∧
    chunk_last 2097152 (((num_chunks_for 2097152 8 : Int) - 1) *
      ((2097152 : Int) / (num_chunks_for 2097152 8 : Int)), none) = 2097152 - 1 ∧
    ((num_chunks_for 2097152 8 : Int) - 1) *
      ((2097152 : Int) / (num_chunks_for 2097152 8 : Int)) ≤ 2097152 - 1) :=
  ⟨by decide, by decide, C1_chunk_sizes 2097152 8 (by decide) (by decide)⟩

/-- Witness for C7: its hypotheses hold at `file_size = 3`, `max_chunks = 1`. -/
theorem C7_chunk_plan_covers_witness :
    (0 : Int) < 3 ∧ 1 ≤ 1 ∧
    (((calculate_optimal_chunks 3 1)[0]?).map Prod.fst = some 0 ∧
    (∀ (i : Nat) (s e : Int) (c' : Int × Option Int),
      (calculate_optimal_chunks 3 1)[i]? = some (s, some e) →
      (calculate_optimal_chunks 3 1)[i + 1]? = some c' → c'.1 = e + 1) ∧
    (∀ b : Int, (0 ≤ b ∧ b < 3) ↔
      ∃ (i : Nat) (c : Int × Option Int),
        (calculate_optimal_chunks 3 1)[i]? = some c ∧ in_chunk 3 c b) ∧
    (∀ (b : Int) (i j : Nat) (ci cj : Int × Option Int),
      (calculate_optimal_chunks 3 1)[i]? = some ci →
      (calculate_optimal_chunks 3 1)[j]? = some cj →
      in_chunk 3 ci b → in_chunk 3 cj b → i = j)) :=
  ⟨by decide, by decide, C7_chunk_plan_covers 3 1 (by decide) (by decide)⟩

theorem run_op_backoff_bounded (st : OptimizerState) (op : OptimizerOp)
    (h : backoff_bounded st) : backoff_bounded (run_op st op) := by
  cases op with
  | rateLimit url bytes t j =>
    intro u b hb
    simp only [run_op] at hb
    unfold apply_rate_limit at hb
    cases hrl : st.rate_limit_tokens url with
    | none =>
      rw [hrl] at hb
      dsimp only at hb
      unfold dict_set at hb
      by_cases hu : u = url
      · rw [if_pos hu] at hb
        cases hb
        constructor <;> norm_num
      · rw [if_neg hu] at hb
        exact h u b hb
    | some tk =>
      rw [hrl] at hb
      dsimp only at hb
      split at hb <;> exact h u b hb
  | serverError url =>
    intro u b hb
    simp only [run_op] at hb
    unfold handle_server_error at hb
    dsimp only at hb
    unfold dict_set at hb
    by_cases hu : u = url
    · rw [if_pos hu] at hb
      have hb' := Option.some.inj hb
      cases hg : st.backoff_factors url with
      | none =>
        rw [hg] at hb'
        simp only [Option.getD] at hb'
        constructor
        · rw [← hb']
          exact le_min (by norm_num) (by norm_num)
        · rw [← hb']
          exact min_le_left _ _
      | some b0 =>
        rw [hg] at hb'
        simp only [Option.getD] at hb'
        obtain ⟨hb01, hb08⟩ := h url b0 hg
        constructor
        · rw [← hb']
          exact le_min (by norm_num) (by linarith)
        · rw [← hb']
          exact min_le_left _ _
    · rw [if_neg hu] at hb
      exact h u b hb
  | speedSample url bytes dur =>
    intro u b hb
    simp only [run_op] at hb
    unfold update_speed at hb
    by_cases hd : 0 < dur
    · rw [if_pos hd] at hb
      dsimp only at hb
      cases hg : st.backoff_factors url with
      | none =>
        rw [hg] at hb
        exact h u b hb
      | some b0 =>
        rw [hg] at hb
        dsimp only at hb
        by_cases h1 : 1 < b0
        · rw [if_pos h1] at hb
          unfold dict_set at hb
          by_cases hu : u = url
          · rw [if_pos hu] at hb
            have hb' := Option.some.inj hb
            obtain ⟨hb01, hb08⟩ := h url b0 hg
            constructor
            · rw [← hb']
              exact le_max_left _ _
            · rw [← hb']
              exact max_le (by norm_num) (by linarith)
          · rw [if_neg hu] at hb
            exact h u b hb
        · rw [if_neg h1] at hb
          exact h u b hb
    · rw [if_neg hd] at hb
      exact h u b hb

theorem run_ops_backoff_bounded (st : OptimizerState) (ops : List OptimizerOp)
    (h : backoff_bounded st) : backoff_bounded (run_ops st ops) := by
  induction ops generalizing st with
  | nil => exact h
  | cons op ops ih => exact ih _ (run_op_backoff_bounded st op h)

/-- **C8**: under every sequence of optimizer operations starting from a
freshly constructed optimizer (any global speed limit), every backoff
multiplier the state records stays within `[1.0, 8.0]`: it starts at 1.0,
`handle_server_error` multiplies by 1.5 capped at 8.0, and a good speed
sample in `update_speed` decays it by 0.9 floored at 1.0. -/
theorem C8_backoff_in_range (msl : Option ℚ) (ops : List OptimizerOp)
    (url : String) (b : ℚ)
    (h : (run_ops (init_optimizer msl) ops).backoff_factors url = some b) :
    1 ≤ b ∧ b ≤ 8 :=
  run_ops_backoff_bounded (init_optimizer msl) ops
    (fun _ _ hb => Option.noConfusion hb) url b h

/-- Witness for C8: after one `handle_server_error` the backoff factor 3/2
recorded for `"u"` lies in the bounds. -/
theorem C8_backoff_in_range_witness : (1 : ℚ) ≤ 3 / 2 ∧ (3 : ℚ) / 2 ≤ 8 :=
  C8_backoff_in_range none [OptimizerOp.serverError "u"] "u" (3 / 2)
    (by norm_num [run_ops, List.foldl, run_op, handle_server_error, dict_set,
      init_optimizer, min_def])

theorem C4_state_eval :
    C4_state.rate_limit_tokens "u" = some 0 ∧
    C4_state.last_token_update "u" = some 0 ∧
    C4_state.max_speed_limit = none ∧
    get_download_speed C4_state "u" = some 1000 ∧
    C4_state.backoff_factors "u" = some (3 / 2) ∧
    C4_state.max_chunk_size = 4194304 := by
  refine ⟨?_, ?_, ?_, ?_, ?_, ?_⟩ <;>
    norm_num [C4_state, run_ops, List.foldl, run_op, apply_rate_limit,
      handle_server_error, update_speed, get_download_speed, init_optimizer,
      dict_set, min_def, max_def, py_int]

/-- **C4** (counterexample): in `C4_state` — no global limit, observed
average speed 1000 bytes/s, backoff factor 3/2 — the claim says the rate is
`1.2 × 1000 = 1200` bytes/s, so a request for 65536 bytes on the empty
bucket should sleep `65536 / 1200` seconds; the code divides the
history-based rate by the backoff factor too, using `1200 / (3/2) = 800`
and sleeping `65536 / 800` seconds. -/
theorem C4_counterexample :
    spec_claimed_rate C4_state "u" = 1200 ∧
    (apply_rate_limit C4_state "u" 65536 0 0).2 = 65536 / 800 ∧
    (apply_rate_limit C4_state "u" 65536 0 0).2 ≠
      (65536 / spec_claimed_rate C4_state "u") * (1 + 0) := by
  refine ⟨?_, ?_, ?_⟩ <;>
    norm_num [C4_state, run_ops, List.foldl, run_op, apply_rate_limit,
      handle_server_error, update_speed, get_download_speed, init_optimizer,
      dict_set, min_def, max_def, py_int, spec_claimed_rate]

/-- **C4** (amended): for every URL with an initialized bucket,
`apply_rate_limit` refills the token bucket and computes the sleep duration
with one shared rate `code_rate`, which equals `base / backoff_multiplier`
in every case — `base` being the global limit when one is set, otherwise
`int(1.2 × observed average speed)` when a nonzero speed history exists,
otherwise 5 MiB/s.  (The claim's rate, `spec_claimed_rate`, omits the
backoff divisor when no global limit is set.) -/
theorem C4_bucket_uses_code_rate (st : OptimizerState) (url : String)
    (bytes t j tokens : ℚ) (h : st.rate_limit_tokens url = some tokens) :
    apply_rate_limit st url bytes t j =
      ({ st with
          rate_limit_tokens := dict_set st.rate_limit_tokens url
            (bucket_tokens tokens (t - (st.last_token_update url).getD 0)
              (st.max_chunk_size * 2) bytes (code_rate st url)),
          last_token_update := dict_set st.last_token_update url t },
        bucket_sleep tokens (t - (st.last_token_update url).getD 0)
          (st.max_chunk_size * 2) bytes j (code_rate st url)) := by
  unfold apply_rate_limit bucket_tokens bucket_sleep code_rate
  rw [h]
  dsimp only
  split <;> rfl

/-- Witness for C4 (amended) at `C4_state`: the bucket holds zero tokens, the
code rate is `1200 / (3/2) = 800`, and the call sleeps `65536 / 800`
seconds. -/
theorem C4_bucket_uses_code_rate_witness :
    C4_state.rate_limit_tokens "u" = some 0 ∧
    (apply_rate_limit C4_state "u" 65536 0 0).2 =
      bucket_sleep 0 (0 - (C4_state.last_token_update "u").getD 0)
        (C4_state.max_chunk_size * 2) 65536 0 (code_rate C4_state "u") :=
  ⟨C4_state_eval.1,
    congrArg Prod.snd (C4_bucket_uses_code_rate C4_state "u" 65536 0 0 0 C4_state_eval.1)⟩

/-- **C10**: for every URL not yet known to the rate limiter, the first call
to `apply_rate_limit` initializes that URL's bucket — tokens set to the
requested byte count, backoff factor set to 1.0, refill clock set to the
current time — and returns a zero sleep without consuming tokens. -/
theorem C10_first_call_initializes (st : OptimizerState) (url : String)
    (bytes t j : ℚ) (h : st.rate_limit_tokens url = none) :
    (apply_rate_limit st url bytes t j).2 = 0 ∧
    (apply_rate_limit st url bytes t j).1.rate_limit_tokens url = some bytes ∧
    (apply_rate_limit st url bytes t j).1.backoff_factors url = some 1 ∧
    (apply_rate_limit st url bytes t j).1.last_token_update url = some t := by
  unfold apply_rate_limit
  rw [h]
  exact ⟨rfl, by simp [dict_set], by simp [dict_set], by simp [dict_set]⟩

/-- Witness for C10 at a fresh optimizer, url `"u"`, 65536 requested bytes. -/
theorem C10_first_call_initializes_witness :
    (init_optimizer none).rate_limit_tokens "u" = none ∧
    ((apply_rate_limit (init_optimizer none) "u" 65536 0 0).2 = 0 ∧
     (apply_rate_limit (init_optimizer none) "u" 65536 0 0).1.rate_limit_tokens "u"
       = some 65536 ∧
     (apply_rate_limit (init_optimizer none) "u" 65536 0 0).1.backoff_factors "u"
       = some 1 ∧
     (apply_rate_limit (init_optimizer none) "u" 65536 0 0).1.last_token_update "u"
       = some 0) :=
  ⟨rfl, C10_first_call_initializes (init_optimizer none) "u" 65536 0 0 rfl⟩

end DownloadOptimizer

namespace AsyncDownloader

theorem chunk_loop_mismatch_err (rc cid rf : Nat) (server : Nat → Nat)
    (bodies : Nat → List Nat) (hcid : cid ≠ 0) (hs : ∀ k, server k = 200) :
    ∀ (fuel k retries bytes : Nat) (append : Bool) (file : List Nat),
      fuel + retries = rc → 1 ≤ fuel →
      chunk_loop rc cid true rf server bodies fuel k retries bytes append file =
        (ChunkResult.err "range", k + fuel) := by
  intro fuel
  induction fuel with
  | zero =>
    intro k retries bytes append file hsum hf
    omega
  | succ f ih =>
    intro k retries bytes append file hsum _
    unfold chunk_loop
    dsimp only
    rw [hs k]
    rw [if_neg (by omega : ¬((200 : Nat) = 458 ∧ retries < rc - 1))]
    rw [if_pos (⟨⟨Or.inl rfl, by omega⟩, hcid⟩ :
      ((true = true ∨ 0 < rf) ∧ (200 : Nat) ≠ 206) ∧ cid ≠ 0)]
    by_cases hr : rc - 1 ≤ retries
    · rw [if_pos hr]
      have hf0 : f = 0 := by omega
      rw [hf0]
    · rw [if_neg hr]
      rw [ih (k + 1) (retries + 1) bytes append file (by omega) (by omega)]
      have harith : k + 1 + f = k + (f + 1) := by omega
      rw [harith]

/-- **C2** (amended): a 200 answer to a ranged request for a non-first chunk
raises an exception that the chunk handler treats like any other failure:
the attempt IS retried with a fresh GET within the chunk's retry budget,
and only after `retry_count` attempts all fail the same way does the error
surface and fail the job. -/
theorem C2_mismatch_retried_then_fatal (rc cid rf : Nat)
    (prior : Option (List Nat)) (server : Nat → Nat) (bodies : Nat → List Nat)
    (hcid : cid ≠ 0) (hrc : 1 ≤ rc) (hs : ∀ k, server k = 200) :
    download_chunk rc cid true rf prior server bodies =
      (ChunkResult.err "range", rc) := by
  unfold download_chunk
  rw [chunk_loop_mismatch_err rc cid rf server bodies hcid hs rc 0 0 rf
    (decide (0 < rf) && prior.isSome) (prior.getD []) (by omega) hrc]
  norm_num

/-- Witness for C2 (amended) at `retry_count = 3`, chunk 1, a server that
always answers 200. -/
theorem C2_mismatch_retried_then_fatal_witness :
    (1 : Nat) ≠ 0 ∧ (1 : Nat) ≤ 3 ∧
    download_chunk 3 1 true 0 none (fun _ => 200) (fun _ => []) =
      (ChunkResult.err "range", 3) :=
  ⟨by decide, by decide,
    C2_mismatch_retried_then_fatal 3 1 0 none (fun _ => 200) (fun _ => [])
      (by decide) (by decide) (fun _ => rfl)⟩

/-- **C2** (counterexample): `retry_count = 3`, chunk index 1, server always
answering 200 to the ranged request: three GETs are issued before the chunk
fails — the failing attempt IS retried within the chunk's retry budget,
contradicting the claim that it is not. -/
theorem C2_counterexample :
    download_chunk 3 1 true 0 none (fun _ => 200) (fun _ => []) =
      (ChunkResult.err "range", 3) ∧ (3 : Nat) ≠ 1 := by
  constructor
  · decide
  · decide

/-- **C5** (amended): when the server answers the first GET with 206,
`_download_chunk` succeeds after one request and returns
`resume_from + (bytes streamed)`, while the part file ends up holding the
prior content (only when `resume_from > 0` *and* the part file existed)
followed by the streamed body.  The returned count therefore equals the
part file's byte count in the combinations where `resume_from = 0` or the
part file existed with exactly `resume_from` bytes — not for every
combination of `resume_from` and prior existence. -/
theorem C5_returned_count (rc cid : Nat) (hr : Bool) (rf : Nat)
    (prior : Option (List Nat)) (server : Nat → Nat) (bodies : Nat → List Nat)
    (hrc : 1 ≤ rc) (hs : server 0 = 206) :
    download_chunk rc cid hr rf prior server bodies =
      (ChunkResult.ok
        ((if 0 < rf ∧ prior.isSome = true then prior.getD [] else []) ++ bodies 0)
        (rf + (bodies 0).length), 1) ∧
    ((rf = 0 ∨ ∃ p, prior = some p ∧ p.length = rf) →
      ((if 0 < rf ∧ prior.isSome = true then prior.getD [] else [])
        ++ bodies 0).length = rf + (bodies 0).length) := by
  constructor
  · unfold download_chunk
    cases rc with
    | zero => omega
    | succ f =>
      unfold chunk_loop
      dsimp only
      rw [hs]
      norm_num
  · rintro (rfl | ⟨p, rfl, hlen⟩)
    · simp
    · by_cases h1 : 0 < rf
      · simp [h1, hlen]
      · have h0 : rf = 0 := by omega
        subst h0
        simp

/-- Witness for C5 (amended) at `retry_count = 3`, chunk 0, `resume_from = 0`,
no prior part file, server answering 206 with a one-byte body. -/
theorem C5_returned_count_witness :
    (1 : Nat) ≤ 3 ∧
    download_chunk 3 0 false 0 none (fun _ => 206) (fun _ => [7]) =
      (ChunkResult.ok
        ((if 0 < 0 ∧ (none : Option (List Nat)).isSome = true
          then (none : Option (List Nat)).getD [] else []) ++ [7])
        (0 + ([7] : List Nat).length), 1) :=
  ⟨by decide,
    (C5_returned_count 3 0 false 0 none (fun _ => 206) (fun _ => [7])
      (by decide) rfl).1⟩

/-- **C5** (counterexample): `resume_from = 5` with no prior part file — the
part file is opened in truncating mode, a 10-byte body is streamed, yet the
call returns `5 + 10 = 15` while the part file holds 10 bytes: the returned
count is not the number of bytes in the part file for every combination of
`resume_from` and prior existence. -/
theorem C5_counterexample :
    download_chunk 3 0 false 5 none (fun _ => 206)
        (fun _ => [1, 2, 3, 4, 5, 6, 7, 8, 9, 10]) =
      (ChunkResult.ok [1, 2, 3, 4, 5, 6, 7, 8, 9, 10] 15, 1) ∧
    ¬ (15 = ([1, 2, 3, 4, 5, 6, 7, 8, 9, 10] : List Nat).length) := by
  constructor
  · decide
  · decide

theorem merge_go_ok (parts : Nat → Option (List Nat)) :
    ∀ (l : List Nat) (acc : List Nat),
      merge_go parts acc l = Except.ok (acc ++ (l.filterMap parts).flatten) := by
  intro l
  induction l with
  | nil =>
    intro acc
    simp [merge_go]
  | cons i rest ih =>
    intro acc
    cases h : parts i with
    | some c => simp [merge_go, read_file, h, ih]
    | none => simp [merge_go, read_file, h, ih]

/-- **C9**: `_merge_chunks` never raises on a missing part file: for every
filesystem and chunk count it succeeds, skipping each absent index and
concatenating the present part files in index order into the destination
content. -/
theorem C9_merge_skips_missing (parts : Nat → Option (List Nat))
    (chunk_count : Nat) :
    merge_chunks parts chunk_count =
      Except.ok (((List.range chunk_count).filterMap parts).flatten) := by
  have h := merge_go_ok parts (List.range chunk_count) []
  simpa [merge_chunks] using h

/-- **C6** (the code at the failing input): with one in-progress chunk —
filepath `/tmp/a.ts`, chunk 0, hence the `active_downloads` key
`"/tmp/a.ts_0"` — the `chunk_ranges` expression of line 220 unpacks the
11-character dict key as `(start, end)` and raises `ValueError`, so the
periodic `save_state` call never records the planned `(start, end)` pairs.
Even for a 2-character key (empty filepath, chunk 0) it produces the
characters of the key, `('_', '0')`, not the planned integer ranges of the
persisted schema. -/
theorem C6_chunk_ranges_code_bug :
    chunk_ranges_expr [download_key "/tmp/a.ts" 0] =
      Except.error "ValueError: cannot unpack" ∧
    chunk_ranges_expr [download_key "" 0] = Except.ok [('_', '0')] := by
  constructor
  · rfl
  · rfl

end AsyncDownloader

namespace DownloadState

/-- **C3**: saving a `StateRecord` and loading the same destination path
returns an equivalent record: identical `filepath`, `url`, `total_size` and
`timestamp`; the per-chunk byte counts survive unchanged with their chunk
ids stringified by JSON; the chunk ranges survive with each `(start, end)`
tuple serialized as a two-element list. -/
theorem C3_save_load_roundtrip (fs : String → Option StoredState)
    (filepath url : String) (downloaded_chunks : List (Int × Int))
    (total_size : Int) (chunk_ranges : List (Int × Option Int))
    (timestamp : ℚ) :
    ∃ s : StoredState,
      load_state (save_state fs filepath url downloaded_chunks total_size
        chunk_ranges timestamp) filepath = some s ∧
      s.filepath = filepath ∧ s.url = url ∧ s.total_size = total_size ∧
      s.timestamp = timestamp ∧
      s.downloaded_chunks =
        downloaded_chunks.map (fun e => (toString e.1, e.2)) ∧
      s.chunk_ranges = chunk_ranges.map (fun e => [some e.1, e.2]) := by
  refine ⟨{ filepath := filepath
            url := url
            downloaded_chunks :=
              downloaded_chunks.map (fun e => (toString e.1, e.2))
            total_size := total_size
            chunk_ranges := chunk_ranges.map (fun e => [some e.1, e.2])
            timestamp := timestamp }, ?_, rfl, rfl, rfl, rfl, rfl, rfl⟩
  unfold load_state save_state
  rw [if_pos rfl]

end DownloadState

end M3U
